import Mathlib

/-
Verification of src/utils/strip_pdf_metadata.py.

The script is a command-line tool that removes the document-information
dictionary and the XMP metadata from PDF files.  Its own logic is path
resolution, validation and a driver loop; parsing, decryption, cloning and
serialisation of PDFs are delegated to the external pypdf library, which we
model as an abstract capability: a PDF document is a record with abstract
page/attachment/structure content, an optional XMP blob, an optional info
dictionary, an encryption flag and (when encrypted) the correct password.

The filesystem is modelled as an association list from paths to file data.
A write that fails partway (the situation the temp-file strategy of the
script exists for) is modelled by a boolean oracle passed to the write
step: when it is false, the opened file is left holding a truncated
serialisation of the document being written.
-/

namespace StripPdf

/-- A filesystem path, split into the directory part and the final name,
mirroring how pathlib.Path is used by the script (parent plus name). -/
structure FsPath where
  dir : String
  name : String
deriving DecidableEq, Repr

/-- Path.with_name: same directory, new final name. -/
def FsPath.withName (p : FsPath) (n : String) : FsPath :=
  { p with name := n }

/-- Rendering of a path, as str(Path) in the f-strings of the script. -/
def pathStr (p : FsPath) : String :=
  p.dir ++ "/" ++ p.name

/-- Index of the last occurrence of a character in a list, if any. -/
def lastIdxOf (ch : Char) : List Char → Option Nat
  | [] => none
  | c :: cs =>
    match lastIdxOf ch cs with
    | some i => some (i + 1)
    | none => if c = ch then some 0 else none

/-- The characters of pathlib's stem: everything before the last dot,
when that dot is neither the leading character nor the trailing one. -/
def stemChars (cs : List Char) : List Char :=
  match lastIdxOf '.' cs with
  | some i => if 0 < i ∧ i < cs.length - 1 then cs.take i else cs
  | none => cs

/-- The characters of pathlib's suffix: the last dot and what follows it,
when that dot is neither the leading character nor the trailing one. -/
def suffixChars (cs : List Char) : List Char :=
  match lastIdxOf '.' cs with
  | some i => if 0 < i ∧ i < cs.length - 1 then cs.drop i else []
  | none => []

/-- Path.stem of a file name. -/
def pathStem (s : String) : String :=
  ⟨stemChars s.data⟩

/-- Path.suffix of a file name. -/
def pathSuffix (s : String) : String :=
  ⟨suffixChars s.data⟩

/-- str.lower(), modelled characterwise; Char.toLower covers the ASCII
range, which is all the extension check needs. -/
def strToLower (s : String) : String :=
  ⟨s.data.map Char.toLower⟩

/-- Path(s) applied to a string argument: split at the last slash into a
directory part and a name (expanduser/resolve are modelled as identity:
paths in the model are already absolute). -/
def pathOfString (s : String) : FsPath :=
  match lastIdxOf '/' s.data with
  | some i => ⟨⟨s.data.take i⟩, ⟨s.data.drop (i + 1)⟩⟩
  | none => ⟨"", s⟩

/-- The abstract in-memory PDF document of the external library: pages,
attachments and remaining structure are opaque payloads; xmp is the XMP
metadata stream, info the document-information dictionary; docPassword is
the correct password of an encrypted document. -/
structure PdfDoc where
  pages : List Nat
  attachments : List Nat
  structData : Nat
  xmp : Option String
  info : Option String
  encrypted : Bool
  docPassword : String
deriving DecidableEq, Repr

/-- reader.decrypt(password): the number of matched keys, zero exactly when
the password is wrong. -/
def decryptCount (d : PdfDoc) (password : String) : Nat :=
  if password = d.docPassword then 1 else 0

/-- Contents of one file on disk: a complete PDF, a truncated
serialisation of a PDF left behind by a write that failed partway, or
arbitrary non-PDF data. -/
inductive FileData where
  | pdf (d : PdfDoc)
  | truncated (d : PdfDoc)
  | raw (bytes : List Nat)
deriving DecidableEq, Repr

/-- The filesystem: an association list from paths to file contents. -/
abbrev Fs : Type := List (FsPath × FileData)

/-- Look a path up on the filesystem. -/
def fsLookup : Fs → FsPath → Option FileData
  | [], _ => none
  | x :: rest, p => if x.1 = p then some x.2 else fsLookup rest p

/-- Path.exists(). -/
def fsExists (fs : Fs) (p : FsPath) : Bool :=
  (fsLookup fs p).isSome

/-- Create or overwrite the file at a path. -/
def fsWrite : Fs → FsPath → FileData → Fs
  | [], p, d => [(p, d)]
  | x :: rest, p, d => if x.1 = p then (p, d) :: rest else x :: fsWrite rest p d

/-- Remove the file at a path. -/
def fsErase (fs : Fs) (p : FsPath) : Fs :=
  fs.filter (fun x => !(decide (x.1 = p)))

/-- src.replace(dst): rename src onto dst, overwriting dst.  The script
only calls this on the temporary file it has just written, so the missing
source case cannot arise; it is modelled as a no-op. -/
def fsReplace (fs : Fs) (src dst : FsPath) : Fs :=
  match fsLookup fs src with
  | some d => fsWrite (fsErase fs src) dst d
  | none => fs

/-- Truthiness of an optional string argument, as Python evaluates it in
a condition: None and the empty string are falsy. -/
def optStrTruthy : Option String → Bool
  | none => false
  | some s => !(decide (s = ""))

/-- The output path computed by the first half of resolve_output_path
(lines 49-58 of the script), before the collision check: an explicit,
truthy --output wins but conflicts with multiple inputs and with
--in-place; otherwise --in-place yields the input path itself; otherwise
the derived sibling name with the stem suffixed by -stripped. -/
def resolvedBase (input_path : FsPath) (output_arg : Option String)
    (in_place : Bool) (multiple_inputs : Bool) : Except String FsPath :=
  if optStrTruthy output_arg then
    if multiple_inputs then
      Except.error "--output can be used only with a single input."
    else if in_place then
      Except.error "Use either --output or --in-place, not both."
    else
      Except.ok (pathOfString (output_arg.getD ""))
  else if in_place then
    Except.ok input_path
  else
    Except.ok (input_path.withName (pathStem input_path.name ++ "-stripped.pdf"))

/-- resolve_output_path (lines 42-65): compute the output path, then fail
when it already exists, differs from the input path, and --force is not
set. -/
def resolve_output_path (fs : Fs) (input_path : FsPath) (output_arg : Option String)
    (in_place : Bool) (force : Bool) (multiple_inputs : Bool) : Except String FsPath :=
  match resolvedBase input_path output_arg in_place multiple_inputs with
  | Except.error e => Except.error e
  | Except.ok output_path =>
    if fsExists fs output_path ∧ output_path ≠ input_path ∧ force = false then
      Except.error ("Output already exists: " ++ pathStr output_path
        ++ " (use --force to overwrite).")
    else
      Except.ok output_path

/-- Outcome of one strip_metadata call: the filesystem after its side
effects, and the message of the raised exception if one was raised. -/
structure StripResult where
  fs : Fs
  err : Option String
deriving DecidableEq, Repr

/-- The clone built by strip_metadata (lines 76-79): the writer clones the
full object graph of the reader, then the XMP metadata and the
document-information dictionary are set to None.  The written output is
not re-encrypted. -/
def stripDoc (d : PdfDoc) : PdfDoc :=
  { d with xmp := none, info := none, encrypted := false }

/-- Lines 81-88 of strip_metadata, the serialisation step: in-place
writes go through the sibling temporary file named stem.tmp.pdf which is
then renamed onto the original; any other output path is opened and
written directly.  A failing write leaves the opened file truncated and
raises. -/
def stripWrite (fs : Fs) (input_path output_path : FsPath) (writer : PdfDoc)
    (writeOk : Bool) : StripResult :=
  if output_path = input_path then
    let tmp_path := input_path.withName (pathStem input_path.name ++ ".tmp.pdf")
    if writeOk then
      ⟨fsReplace (fsWrite fs tmp_path (FileData.pdf writer)) tmp_path input_path, none⟩
    else
      ⟨fsWrite fs tmp_path (FileData.truncated writer),
        some ("write failed: " ++ pathStr tmp_path)⟩
  else
    if writeOk then
      ⟨fsWrite fs output_path (FileData.pdf writer), none⟩
    else
      ⟨fsWrite fs output_path (FileData.truncated writer),
        some ("write failed: " ++ pathStr output_path)⟩

/-- strip_metadata (lines 68-88).  writeOk is the oracle for the single
writer.write call: when false, the write fails partway, raising, and the
opened file is left holding a truncated serialisation.  Errors raised
before the write leave the filesystem untouched. -/
def strip_metadata (fs : Fs) (input_path : FsPath) (output_path : FsPath)
    (password : Option String) (writeOk : Bool) : StripResult :=
  match fsLookup fs input_path with
  | none =>
    ⟨fs, some ("No such file: " ++ pathStr input_path)⟩
  | some (FileData.raw _) =>
    ⟨fs, some ("Cannot read as PDF: " ++ pathStr input_path)⟩
  | some (FileData.truncated _) =>
    ⟨fs, some ("Cannot read as PDF: " ++ pathStr input_path)⟩
  | some (FileData.pdf reader) =>
    if reader.encrypted then
      if optStrTruthy password = false then
        ⟨fs, some ("Encrypted PDF requires --password: " ++ pathStr input_path)⟩
      else if decryptCount reader (password.getD "") = 0 then
        ⟨fs, some ("Failed to decrypt PDF with provided password: " ++ pathStr input_path)⟩
      else
        stripWrite fs input_path output_path (stripDoc reader) writeOk
    else
      stripWrite fs input_path output_path (stripDoc reader) writeOk

/-- The parsed command line (section 4.1 of the spec): argparse guarantees
at least one input; expanduser/resolve on the inputs is modelled as
identity, so the inputs are paths already. -/
structure Args where
  inputs : List FsPath
  output : Option String
  in_place : Bool
  password : Option String
  force : Bool
deriving DecidableEq, Repr

/-- The validation loop of main (lines 95-101): the full error line of the
first input that does not exist or lacks a case-insensitive .pdf suffix,
if any. -/
def validate (fs : Fs) : List FsPath → Option String
  | [] => none
  | p :: rest =>
    if fsExists fs p = false then
      some ("ERROR: File not found: " ++ pathStr p)
    else if strToLower (pathSuffix p.name) ≠ ".pdf" then
      some ("ERROR: Not a PDF file: " ++ pathStr p)
    else
      validate fs rest

/-- State reached when the processing loop of main stops: the filesystem,
the (input, output) pairs completed in order, and the message of the
exception that aborted the loop, if any. -/
structure LoopResult where
  fs : Fs
  processed : List (FsPath × FsPath)
  err : Option String
deriving DecidableEq, Repr

/-- The processing loop of main (lines 104-113): resolve each input in
order, strip it, and stop at the first exception. -/
def processLoop (output_arg : Option String) (in_place : Bool) (force : Bool)
    (multiple : Bool) (password : Option String) (writeOk : Bool) :
    Fs → List FsPath → LoopResult
  | fs, [] => ⟨fs, [], none⟩
  | fs, p :: rest =>
    match resolve_output_path fs p output_arg in_place force multiple with
    | Except.error e => ⟨fs, [], some e⟩
    | Except.ok out_path =>
      match strip_metadata fs p out_path password writeOk with
      | ⟨fs2, some e⟩ => ⟨fs2, [], some e⟩
      | ⟨fs2, none⟩ =>
        ⟨(processLoop output_arg in_place force multiple password writeOk fs2 rest).fs,
          (p, out_path) :: (processLoop output_arg in_place force multiple password
            writeOk fs2 rest).processed,
          (processLoop output_arg in_place force multiple password writeOk fs2 rest).err⟩

/-- The stdout line printed for one completed file (line 113). -/
def processedLine (pr : FsPath × FsPath) : String :=
  "Processed: " ++ pathStr pr.1 ++ " -> " ++ pathStr pr.2

/-- Observable outcome of one run of main: exit code, the stdout lines in
order, the stderr lines, and the final filesystem. -/
structure MainResult where
  exit : Nat
  stdout : List String
  stderr : List String
  fs : Fs
deriving DecidableEq, Repr

/-- main (lines 91-118): validate every input first, then run the
processing loop; an exception anywhere in the loop is printed as a single
ERROR line on stderr with exit code 1, otherwise the exit code is 0. -/
def main (args : Args) (fs : Fs) (writeOk : Bool) : MainResult :=
  match validate fs args.inputs with
  | some msg => ⟨1, [], [msg], fs⟩
  | none =>
    match processLoop args.output args.in_place args.force
        (decide (1 < args.inputs.length)) args.password writeOk fs args.inputs with
    | ⟨fs2, pr, some e⟩ => ⟨1, pr.map processedLine, ["ERROR: " ++ e], fs2⟩
    | ⟨fs2, pr, none⟩ => ⟨0, pr.map processedLine, [], fs2⟩

/-- Abbreviation for the sibling temporary path used by in-place mode. -/
def tmpOf (p : FsPath) : FsPath :=
  p.withName (pathStem p.name ++ ".tmp.pdf")

/-- A sample document carrying both metadata fields. -/
def sampleDoc : PdfDoc :=
  ⟨[1, 2], [3], 7, some "xmpdata", some "infodata", false, ""⟩

/-- A sample encrypted document whose correct password is pw. -/
def sampleEnc : PdfDoc :=
  ⟨[1], [], 0, some "xmpdata", some "infodata", true, "pw"⟩

/-- A sample input path. -/
def sampleA : FsPath := ⟨"/d", "a.pdf"⟩

/-- A sample distinct output path. -/
def sampleB : FsPath := ⟨"/d", "b.pdf"⟩

/-! Basic lemmas about the filesystem operations. -/

theorem fsLookup_fsWrite_self (fs : Fs) (p : FsPath) (d : FileData) :
    fsLookup (fsWrite fs p d) p = some d := by
  induction fs with
  | nil => simp [fsWrite, fsLookup]
  | cons x rest ih =>
    by_cases h : x.1 = p
    · simp [fsWrite, fsLookup, h]
    · simp [fsWrite, fsLookup, h, ih]

theorem fsLookup_fsWrite_ne (fs : Fs) (p q : FsPath) (d : FileData) (h : q ≠ p) :
    fsLookup (fsWrite fs p d) q = fsLookup fs q := by
  induction fs with
  | nil => simp [fsWrite, fsLookup, Ne.symm h]
  | cons x rest ih =>
    by_cases hx : x.1 = p
    · simp [fsWrite, fsLookup, hx, Ne.symm h]
    · simp [fsWrite, fsLookup, hx, ih]

theorem fsLookup_fsErase_self (fs : Fs) (p : FsPath) :
    fsLookup (fsErase fs p) p = none := by
  induction fs with
  | nil => simp [fsErase, fsLookup]
  | cons x rest ih =>
    by_cases h : x.1 = p
    · simpa [fsErase, List.filter_cons, h] using ih
    · simpa [fsErase, List.filter_cons, h, fsLookup] using ih

theorem fsLookup_fsErase_ne (fs : Fs) (p q : FsPath) (h : q ≠ p) :
    fsLookup (fsErase fs p) q = fsLookup fs q := by
  induction fs with
  | nil => simp [fsErase, fsLookup]
  | cons x rest ih =>
    simp only [fsErase] at ih ⊢
    by_cases hx : x.1 = p
    · simp [List.filter_cons, hx, fsLookup, Ne.symm h, ih]
    · simp [List.filter_cons, hx, fsLookup, ih]

/-! Lemmas about stems and suffixes of composite file names. -/

theorem lastIdxOf_append (ch : Char) (xs ys : List Char) (j : Nat)
    (h : lastIdxOf ch ys = some j) :
    lastIdxOf ch (xs ++ ys) = some (xs.length + j) := by
  induction xs with
  | nil => simpa using h
  | cons c cs ih =>
    show lastIdxOf ch (c :: (cs ++ ys)) = _
    rw [lastIdxOf, ih]
    simp only [List.length_cons, Option.some.injEq]
    omega

theorem stemChars_append (xs ys : List Char) (j : Nat)
    (hy : lastIdxOf '.' ys = some j) (hj : 0 < j) (hlt : j + 1 < ys.length) :
    stemChars (xs ++ ys) = xs ++ ys.take j := by
  unfold stemChars
  rw [lastIdxOf_append '.' xs ys j hy]
  have h1 : 0 < xs.length + j := by omega
  have h2 : xs.length + j < (xs ++ ys).length - 1 := by
    simp only [List.length_append]
    omega
  simp only [h1, h2, and_self, if_true, List.take_append]

theorem suffixChars_append (xs ys : List Char) (j : Nat)
    (hy : lastIdxOf '.' ys = some j) (hj : 0 < j) (hlt : j + 1 < ys.length) :
    suffixChars (xs ++ ys) = ys.drop j := by
  unfold suffixChars
  rw [lastIdxOf_append '.' xs ys j hy]
  have h1 : 0 < xs.length + j := by omega
  have h2 : xs.length + j < (xs ++ ys).length - 1 := by
    simp only [List.length_append]
    omega
  simp only [h1, h2, and_self, if_true, List.drop_append]

theorem data_append (s t : String) : (s ++ t).data = s.data ++ t.data := rfl

theorem pathStem_append_tmp_pdf (s : String) :
    pathStem (s ++ ".tmp.pdf") = s ++ ".tmp" := by
  unfold pathStem
  rw [data_append, stemChars_append s.data ".tmp.pdf".data 4 rfl (by omega) (by simp)]
  rfl

theorem pathStem_append_stripped_pdf (s : String) :
    pathStem (s ++ "-stripped.pdf") = s ++ "-stripped" := by
  unfold pathStem
  rw [data_append, stemChars_append s.data "-stripped.pdf".data 9 rfl (by omega) (by simp)]
  rfl

theorem pathSuffix_append_stripped_pdf (s : String) :
    pathSuffix (s ++ "-stripped.pdf") = ".pdf" := by
  unfold pathSuffix
  rw [data_append, suffixChars_append s.data "-stripped.pdf".data 9 rfl (by omega) (by simp)]
  rfl

theorem tmpName_ne (s : String) : pathStem s ++ ".tmp.pdf" ≠ s := by
  intro h
  have hdata : (pathStem s).data ++ (".tmp.pdf" : String).data = s.data :=
    (data_append (pathStem s) ".tmp.pdf") ▸ congrArg String.data h
  have hstem : stemChars s.data = (pathStem s).data := rfl
  have h2 : stemChars s.data = (pathStem s).data ++ (".tmp" : String).data := by
    rw [← hdata, stemChars_append (pathStem s).data (".tmp.pdf" : String).data 4 rfl
      (by omega) (by simp)]
    rfl
  have hlen := congrArg List.length (hstem.symm.trans h2)
  simp only [List.length_append] at hlen
  have h4 : ((".tmp" : String).data).length = 4 := rfl
  rw [h4] at hlen
  omega

theorem tmpPath_ne (p : FsPath) :
    p.withName (pathStem p.name ++ ".tmp.pdf") ≠ p := by
  intro h
  exact tmpName_ne p.name (congrArg FsPath.name h)

/-! Characterisation lemmas for strip_metadata. -/

theorem strip_metadata_eq (fs : Fs) (input output : FsPath) (pw : Option String)
    (w : Bool) (d : PdfDoc) (hin : fsLookup fs input = some (FileData.pdf d)) :
    strip_metadata fs input output pw w =
      if d.encrypted then
        if optStrTruthy pw = false then
          ⟨fs, some ("Encrypted PDF requires --password: " ++ pathStr input)⟩
        else if decryptCount d (pw.getD "") = 0 then
          ⟨fs, some ("Failed to decrypt PDF with provided password: " ++ pathStr input)⟩
        else
          stripWrite fs input output (stripDoc d) w
      else
        stripWrite fs input output (stripDoc d) w := by
  unfold strip_metadata
  rw [hin]

theorem stripWrite_ok_lookup (fs : Fs) (input output : FsPath) (writer : PdfDoc)
    (w : Bool) (hok : (stripWrite fs input output writer w).err = none) :
    fsLookup (stripWrite fs input output writer w).fs output
      = some (FileData.pdf writer) := by
  unfold stripWrite at hok ⊢
  by_cases h : output = input
  · cases w with
    | false => simp [h] at hok
    | true =>
      subst h
      simp only [if_pos rfl, if_true]
      simp [fsReplace, fsLookup_fsWrite_self]
  · cases w with
    | false => simp [h] at hok
    | true => simp [h, fsLookup_fsWrite_self]

theorem stripWrite_err_input_preserved (fs : Fs) (input output : FsPath)
    (writer : PdfDoc) (w : Bool)
    (he : (stripWrite fs input output writer w).err.isSome) :
    fsLookup (stripWrite fs input output writer w).fs input = fsLookup fs input := by
  unfold stripWrite at he ⊢
  by_cases h : output = input
  · cases w with
    | false =>
      subst h
      simp only [if_pos rfl, if_false, Bool.false_eq_true]
      exact fsLookup_fsWrite_ne fs _ output _ (Ne.symm (tmpPath_ne output))
    | true => simp [h] at he
  · cases w with
    | false =>
      simp only [if_neg h, if_false, Bool.false_eq_true]
      exact fsLookup_fsWrite_ne fs _ input _ (fun hc => h hc.symm)
    | true => simp [h] at he

theorem strip_metadata_ok_lookup (fs : Fs) (input output : FsPath)
    (pw : Option String) (w : Bool) (d : PdfDoc)
    (hin : fsLookup fs input = some (FileData.pdf d))
    (hok : (strip_metadata fs input output pw w).err = none) :
    fsLookup (strip_metadata fs input output pw w).fs output
      = some (FileData.pdf (stripDoc d)) := by
  rw [strip_metadata_eq fs input output pw w d hin] at hok ⊢
  cases hE : d.encrypted with
  | false =>
    simp only [hE, Bool.false_eq_true, if_false] at hok ⊢
    exact stripWrite_ok_lookup _ _ _ _ _ hok
  | true =>
    simp only [hE, if_true] at hok ⊢
    by_cases hp : optStrTruthy pw = false
    · rw [if_pos hp] at hok
      exact absurd hok (by simp)
    · rw [if_neg hp] at hok ⊢
      by_cases hd : decryptCount d (pw.getD "") = 0
      · rw [if_pos hd] at hok
        exact absurd hok (by simp)
      · rw [if_neg hd] at hok ⊢
        exact stripWrite_ok_lookup _ _ _ _ _ hok

theorem strip_metadata_err_input_preserved (fs : Fs) (input output : FsPath)
    (pw : Option String) (w : Bool) (d : PdfDoc)
    (hin : fsLookup fs input = some (FileData.pdf d))
    (he : (strip_metadata fs input output pw w).err.isSome) :
    fsLookup (strip_metadata fs input output pw w).fs input
      = some (FileData.pdf d) := by
  rw [strip_metadata_eq fs input output pw w d hin] at he ⊢
  cases hE : d.encrypted with
  | false =>
    simp only [hE, Bool.false_eq_true, if_false] at he ⊢
    rw [stripWrite_err_input_preserved fs input output (stripDoc d) w he]
    exact hin
  | true =>
    simp only [hE, if_true] at he ⊢
    by_cases hp : optStrTruthy pw = false
    · rw [if_pos hp]
      exact hin
    · rw [if_neg hp] at he ⊢
      by_cases hd : decryptCount d (pw.getD "") = 0
      · rw [if_pos hd]
        exact hin
      · rw [if_neg hd] at he ⊢
        rw [stripWrite_err_input_preserved fs input output (stripDoc d) w he]
        exact hin

/-! Claim C1. -/

/-- C1: for every successfully processed input, strip_metadata produces at
the output path a complete document in which both the XMP metadata and the
document-information dictionary are cleared, while everything else in the
cloned document (pages, attachments, remaining structure) is preserved
from the input. -/
theorem C1_strip_clears_both_preserves_rest (fs : Fs) (input output : FsPath)
    (pw : Option String) (w : Bool) (d : PdfDoc)
    (hin : fsLookup fs input = some (FileData.pdf d))
    (hok : (strip_metadata fs input output pw w).err = none) :
    fsLookup (strip_metadata fs input output pw w).fs output
      = some (FileData.pdf (stripDoc d))
    ∧ (stripDoc d).xmp = none ∧ (stripDoc d).info = none
    ∧ (stripDoc d).pages = d.pages
    ∧ (stripDoc d).attachments = d.attachments
    ∧ (stripDoc d).structData = d.structData :=
  ⟨strip_metadata_ok_lookup fs input output pw w d hin hok, rfl, rfl, rfl, rfl, rfl⟩

/-- Witness for C1 at a concrete run: a plaintext two-page document with
both metadata fields, written to a distinct output path. -/
theorem C1_witness :
    fsLookup [(sampleA, FileData.pdf sampleDoc)] sampleA
        = some (FileData.pdf sampleDoc)
    ∧ (strip_metadata [(sampleA, FileData.pdf sampleDoc)] sampleA sampleB
        none true).err = none
    ∧ (fsLookup (strip_metadata [(sampleA, FileData.pdf sampleDoc)] sampleA
          sampleB none true).fs sampleB = some (FileData.pdf (stripDoc sampleDoc))
      ∧ (stripDoc sampleDoc).xmp = none ∧ (stripDoc sampleDoc).info = none
      ∧ (stripDoc sampleDoc).pages = sampleDoc.pages
      ∧ (stripDoc sampleDoc).attachments = sampleDoc.attachments
      ∧ (stripDoc sampleDoc).structData = sampleDoc.structData) :=
  ⟨by decide, by decide,
    C1_strip_clears_both_preserves_rest _ _ _ _ _ _ (by decide) (by decide)⟩

/-! Claim C2. -/

/-- C2 counterexample: in the concrete run below, the output path is
distinct from the input path, the write fails partway (an error occurs
while processing the file), and a partial output file remains at the
output path — so it is false that no partial output file is ever left, and
false in particular for the direct-write case. -/
theorem C2_counterexample :
    (strip_metadata [(sampleA, FileData.pdf sampleDoc)] sampleA sampleB
        none false).err.isSome = true
    ∧ fsLookup (strip_metadata [(sampleA, FileData.pdf sampleDoc)] sampleA
        sampleB none false).fs sampleB
      = some (FileData.truncated (stripDoc sampleDoc)) := by
  constructor
  · decide
  · decide

/-- C2 amended: for every run in which an error occurs while processing a
file, the file at the INPUT path is never left partial or corrupt: the
in-place mode writes the whole document to the sibling temporary file and
replaces the original only after a complete successful write, and the
direct-write mode never touches the input path; a failed direct write may
however leave a partial file at the distinct output path (the
counterexample above), and a failed in-place write leaves the partial
sibling temporary file.  On in-place success, the input path holds the
complete stripped document. -/
theorem C2_input_never_partial (fs : Fs) (input output : FsPath)
    (pw : Option String) (w : Bool) (d : PdfDoc)
    (hin : fsLookup fs input = some (FileData.pdf d)) :
    ((strip_metadata fs input output pw w).err.isSome →
      fsLookup (strip_metadata fs input output pw w).fs input
        = some (FileData.pdf d))
    ∧ (output = input → (strip_metadata fs input output pw w).err = none →
      fsLookup (strip_metadata fs input output pw w).fs input
        = some (FileData.pdf (stripDoc d))) := by
  constructor
  · intro he
    exact strip_metadata_err_input_preserved fs input output pw w d hin he
  · intro hio hok
    subst hio
    exact strip_metadata_ok_lookup fs output output pw w d hin hok

/-- Witness for the amended C2 at a concrete in-place run. -/
theorem C2_witness :
    ((strip_metadata [(sampleA, FileData.pdf sampleDoc)] sampleA sampleA
        none false).err.isSome →
      fsLookup (strip_metadata [(sampleA, FileData.pdf sampleDoc)] sampleA
          sampleA none false).fs sampleA = some (FileData.pdf sampleDoc))
    ∧ (sampleA = sampleA →
      (strip_metadata [(sampleA, FileData.pdf sampleDoc)] sampleA sampleA
          none false).err = none →
      fsLookup (strip_metadata [(sampleA, FileData.pdf sampleDoc)] sampleA
          sampleA none false).fs sampleA = some (FileData.pdf (stripDoc sampleDoc))) :=
  C2_input_never_partial [(sampleA, FileData.pdf sampleDoc)] sampleA sampleA
    none false sampleDoc (by decide)

/-! Claim C3. -/

theorem validate_some_of_invalid (fs : Fs) (inputs : List FsPath)
    (h : ∃ p ∈ inputs,
      fsExists fs p = false ∨ strToLower (pathSuffix p.name) ≠ ".pdf") :
    ∃ q ∈ inputs,
      (fsExists fs q = false
        ∧ validate fs inputs = some ("ERROR: File not found: " ++ pathStr q))
      ∨ (fsExists fs q = true ∧ strToLower (pathSuffix q.name) ≠ ".pdf"
        ∧ validate fs inputs = some ("ERROR: Not a PDF file: " ++ pathStr q)) := by
  induction inputs with
  | nil =>
    obtain ⟨p, hp, _⟩ := h
    cases hp
  | cons p rest ih =>
    cases hex : fsExists fs p with
    | false =>
      exact ⟨p, List.mem_cons_self p rest, Or.inl ⟨hex, by simp [validate, hex]⟩⟩
    | true =>
      by_cases hs : strToLower (pathSuffix p.name) = ".pdf"
      · have hrest : ∃ q ∈ rest,
            fsExists fs q = false ∨ strToLower (pathSuffix q.name) ≠ ".pdf" := by
          obtain ⟨q, hq, hbad⟩ := h
          rcases List.mem_cons.mp hq with hq0 | hq1
          · subst hq0
            rcases hbad with hb | hb
            · rw [hex] at hb
              exact absurd hb (by simp)
            · exact absurd hs hb
          · exact ⟨q, hq1, hbad⟩
        obtain ⟨q, hq, hcase⟩ := ih hrest
        have hstep : validate fs (p :: rest) = validate fs rest := by
          simp [validate, hex, hs]
        refine ⟨q, List.mem_cons_of_mem p hq, ?_⟩
        rw [hstep]
        exact hcase
      · exact ⟨p, List.mem_cons_self p rest,
          Or.inr ⟨hex, hs, by simp [validate, hex, hs]⟩⟩

/-- C3: for every invocation in which some input path does not exist or
has an extension other than case-insensitive .pdf, the program prints the
matching ERROR line (File not found, respectively Not a PDF file) for an
offending input to the error stream and exits with code 1, with empty
stdout and the filesystem untouched: validation runs before any file is
processed or modified. -/
theorem C3_invalid_input_aborts (args : Args) (fs : Fs) (w : Bool)
    (h : ∃ p ∈ args.inputs,
      fsExists fs p = false ∨ strToLower (pathSuffix p.name) ≠ ".pdf") :
    ∃ q ∈ args.inputs,
      (fsExists fs q = false
        ∧ main args fs w
          = ⟨1, [], ["ERROR: File not found: " ++ pathStr q], fs⟩)
      ∨ (fsExists fs q = true ∧ strToLower (pathSuffix q.name) ≠ ".pdf"
        ∧ main args fs w
          = ⟨1, [], ["ERROR: Not a PDF file: " ++ pathStr q], fs⟩) := by
  obtain ⟨q, hq, hcase⟩ := validate_some_of_invalid fs args.inputs h
  refine ⟨q, hq, ?_⟩
  rcases hcase with ⟨hex, hv⟩ | ⟨hex, hs, hv⟩
  · exact Or.inl ⟨hex, by unfold main; rw [hv]⟩
  · exact Or.inr ⟨hex, hs, by unfold main; rw [hv]⟩

/-- Witness for C3: a run whose single input path is absent from the
filesystem. -/
theorem C3_witness :
    ∃ q ∈ [sampleB],
      (fsExists [(sampleA, FileData.pdf sampleDoc)] q = false
        ∧ main ⟨[sampleB], none, false, none, false⟩
            [(sampleA, FileData.pdf sampleDoc)] true
          = ⟨1, [], ["ERROR: File not found: " ++ pathStr q],
              [(sampleA, FileData.pdf sampleDoc)]⟩)
      ∨ (fsExists [(sampleA, FileData.pdf sampleDoc)] q = true
        ∧ strToLower (pathSuffix q.name) ≠ ".pdf"
        ∧ main ⟨[sampleB], none, false, none, false⟩
            [(sampleA, FileData.pdf sampleDoc)] true
          = ⟨1, [], ["ERROR: Not a PDF file: " ++ pathStr q],
              [(sampleA, FileData.pdf sampleDoc)]⟩) :=
  C3_invalid_input_aborts ⟨[sampleB], none, false, none, false⟩
    [(sampleA, FileData.pdf sampleDoc)] true (by decide)

/-! Claims C4 and C5, on resolve_output_path. -/

theorem resolvedBase_multi (input : FsPath) (s : String) (ip : Bool) (hs : s ≠ "") :
    resolvedBase input (some s) ip true
      = Except.error "--output can be used only with a single input." := by
  unfold resolvedBase
  simp [optStrTruthy, hs]

theorem resolvedBase_conflict (input : FsPath) (s : String) (hs : s ≠ "") :
    resolvedBase input (some s) true false
      = Except.error "Use either --output or --in-place, not both." := by
  unfold resolvedBase
  simp [optStrTruthy, hs]

theorem resolve_output_path_of_base_error (fs : Fs) (input : FsPath)
    (oa : Option String) (ip f m : Bool) (e : String)
    (h : resolvedBase input oa ip m = Except.error e) :
    resolve_output_path fs input oa ip f m = Except.error e := by
  unfold resolve_output_path
  rw [h]

theorem main_first_resolve_error (args : Args) (fs : Fs) (w : Bool) (i : FsPath)
    (rest : List FsPath) (e : String)
    (hin : args.inputs = i :: rest)
    (hval : validate fs args.inputs = none)
    (hres : resolve_output_path fs i args.output args.in_place args.force
      (decide (1 < args.inputs.length)) = Except.error e) :
    main args fs w = ⟨1, [], ["ERROR: " ++ e], fs⟩ := by
  unfold main
  rw [hval]
  have hloop : processLoop args.output args.in_place args.force
      (decide (1 < args.inputs.length)) args.password w fs args.inputs
      = ⟨fs, [], some e⟩ := by
    set m := decide (1 < args.inputs.length) with hm
    rw [hin]
    unfold processLoop
    rw [hres]
  rw [hloop]
  rfl

/-- C4: resolve_output_path raises a configuration error whenever a truthy
output argument is combined with multiple inputs, and whenever it is
combined with the in-place flag; in either case the run exits with code 1,
prints nothing to stdout, and the filesystem is unchanged. -/
theorem C4_output_conflicts :
    (∀ (fs : Fs) (input : FsPath) (s : String) (ip f : Bool), s ≠ "" →
      resolve_output_path fs input (some s) ip f true
        = Except.error "--output can be used only with a single input.")
    ∧ (∀ (fs : Fs) (input : FsPath) (s : String) (f : Bool), s ≠ "" →
      resolve_output_path fs input (some s) true f false
        = Except.error "Use either --output or --in-place, not both.")
    ∧ (∀ (args : Args) (fs : Fs) (w : Bool) (s : String),
      args.output = some s → s ≠ "" → args.inputs ≠ [] →
      (1 < args.inputs.length ∨ args.in_place = true) →
      validate fs args.inputs = none →
      (main args fs w).exit = 1 ∧ (main args fs w).stdout = []
        ∧ (main args fs w).fs = fs) := by
  refine ⟨?_, ?_, ?_⟩
  · intro fs input s ip f hs
    exact resolve_output_path_of_base_error fs input (some s) ip f true _
      (resolvedBase_multi input s ip hs)
  · intro fs input s f hs
    exact resolve_output_path_of_base_error fs input (some s) true f false _
      (resolvedBase_conflict input s hs)
  · intro args fs w s hout hs hne hcase hval
    obtain ⟨p, rest, hinputs⟩ : ∃ p rest, args.inputs = p :: rest := by
      cases hi : args.inputs with
      | nil => exact absurd hi hne
      | cons a l => exact ⟨a, l, rfl⟩
    have hbase : ∃ e, resolvedBase p (some s) args.in_place
        (decide (1 < args.inputs.length)) = Except.error e := by
      rcases hcase with hm | hip
      · exact ⟨_, by rw [decide_eq_true hm]; exact resolvedBase_multi p s args.in_place hs⟩
      · cases hm : decide (1 < args.inputs.length) with
        | true => exact ⟨_, resolvedBase_multi p s args.in_place hs⟩
        | false => exact ⟨_, hip ▸ resolvedBase_conflict p s hs⟩
    obtain ⟨e, he⟩ := hbase
    have hres : resolve_output_path fs p (some s) args.in_place args.force
        (decide (1 < args.inputs.length)) = Except.error e :=
      resolve_output_path_of_base_error _ _ _ _ _ _ _ he
    have hloop : processLoop args.output args.in_place args.force
        (decide (1 < args.inputs.length)) args.password w fs args.inputs
        = ⟨fs, [], some e⟩ := by
      rw [hinputs]
      unfold processLoop
      rw [← hinputs, hout, hres]
    unfold main
    rw [hval, hloop]
    exact ⟨rfl, rfl, rfl⟩

/-- Witness for C4: the first two parts at a concrete path and output
string, the third at a concrete two-input run with --output set. -/
theorem C4_witness :
    resolve_output_path [] sampleA (some "/d/o.pdf") false false true
      = Except.error "--output can be used only with a single input."
    ∧ resolve_output_path [] sampleA (some "/d/o.pdf") true false false
      = Except.error "Use either --output or --in-place, not both."
    ∧ ((main ⟨[sampleA, sampleB], some "/d/o.pdf", false, none, false⟩
          [(sampleA, FileData.pdf sampleDoc), (sampleB, FileData.pdf sampleDoc)]
          true).exit = 1
      ∧ (main ⟨[sampleA, sampleB], some "/d/o.pdf", false, none, false⟩
          [(sampleA, FileData.pdf sampleDoc), (sampleB, FileData.pdf sampleDoc)]
          true).stdout = []
      ∧ (main ⟨[sampleA, sampleB], some "/d/o.pdf", false, none, false⟩
          [(sampleA, FileData.pdf sampleDoc), (sampleB, FileData.pdf sampleDoc)]
          true).fs
        = [(sampleA, FileData.pdf sampleDoc), (sampleB, FileData.pdf sampleDoc)]) :=
  ⟨C4_output_conflicts.1 [] sampleA "/d/o.pdf" false false (by decide),
    C4_output_conflicts.2.1 [] sampleA "/d/o.pdf" false (by decide),
    C4_output_conflicts.2.2
      ⟨[sampleA, sampleB], some "/d/o.pdf", false, none, false⟩
      [(sampleA, FileData.pdf sampleDoc), (sampleB, FileData.pdf sampleDoc)]
      true "/d/o.pdf" rfl (by decide) (by decide) (Or.inl (by decide)) (by decide)⟩

/-- C5: whenever the computed output path already exists, differs from the
input path, and force is false, resolve_output_path fails with the
file-exists error naming the path; a computed path identical to the input
path never triggers the check; at the run level the process exits with
code 1, prints nothing to stdout, and the filesystem — in particular the
pre-existing file at the resolved path — is unchanged. -/
theorem C5_existing_output_blocks :
    (∀ (fs : Fs) (input : FsPath) (oa : Option String) (ip m : Bool) (p : FsPath),
      resolvedBase input oa ip m = Except.ok p →
      fsExists fs p = true → p ≠ input →
      resolve_output_path fs input oa ip false m
        = Except.error ("Output already exists: " ++ pathStr p
            ++ " (use --force to overwrite)."))
    ∧ (∀ (fs : Fs) (input : FsPath) (oa : Option String) (ip f m : Bool),
      resolvedBase input oa ip m = Except.ok input →
      resolve_output_path fs input oa ip f m = Except.ok input)
    ∧ (∀ (args : Args) (fs : Fs) (w : Bool) (i p : FsPath),
      args.inputs = [i] → args.force = false →
      validate fs args.inputs = none →
      resolvedBase i args.output args.in_place false = Except.ok p →
      fsExists fs p = true → p ≠ i →
      main args fs w = ⟨1, [],
        ["ERROR: " ++ ("Output already exists: " ++ pathStr p
          ++ " (use --force to overwrite).")], fs⟩) := by
  refine ⟨?_, ?_, ?_⟩
  · intro fs input oa ip m p hbase hex hne
    unfold resolve_output_path
    simp only [hbase]
    rw [if_pos ⟨hex, hne, trivial⟩]
  · intro fs input oa ip f m hbase
    unfold resolve_output_path
    simp only [hbase]
    rw [if_neg (by simp)]
  · intro args fs w i p hin hf hval hbase hex hne
    have hmult : decide (1 < args.inputs.length) = false := by
      rw [hin]
      rfl
    have hres : resolve_output_path fs i args.output args.in_place args.force
        (decide (1 < args.inputs.length))
        = Except.error ("Output already exists: " ++ pathStr p
            ++ " (use --force to overwrite).") := by
      rw [hmult, hf]
      unfold resolve_output_path
      simp only [hbase]
      rw [if_pos ⟨hex, hne, trivial⟩]
    exact main_first_resolve_error args fs w i [] _ hin hval hres

/-- Witness for C5: the derived output path of a.pdf already exists as
a-stripped.pdf, with force unset; also the in-place identity path with the
check skipped. -/
theorem C5_witness :
    resolve_output_path
        [(sampleA, FileData.pdf sampleDoc),
          (⟨"/d", "a-stripped.pdf"⟩, FileData.raw [0])]
        sampleA none false false false
      = Except.error ("Output already exists: " ++ pathStr ⟨"/d", "a-stripped.pdf"⟩
          ++ " (use --force to overwrite).")
    ∧ resolve_output_path [(sampleA, FileData.pdf sampleDoc)] sampleA none true
        false false
      = Except.ok sampleA
    ∧ main ⟨[sampleA], none, false, none, false⟩
        [(sampleA, FileData.pdf sampleDoc),
          (⟨"/d", "a-stripped.pdf"⟩, FileData.raw [0])] true
      = ⟨1, [],
          ["ERROR: " ++ ("Output already exists: " ++ pathStr ⟨"/d", "a-stripped.pdf"⟩
            ++ " (use --force to overwrite).")],
          [(sampleA, FileData.pdf sampleDoc),
            (⟨"/d", "a-stripped.pdf"⟩, FileData.raw [0])]⟩ :=
  ⟨C5_existing_output_blocks.1
      [(sampleA, FileData.pdf sampleDoc),
        (⟨"/d", "a-stripped.pdf"⟩, FileData.raw [0])]
      sampleA none false false ⟨"/d", "a-stripped.pdf"⟩
      rfl (by decide) (by decide),
    C5_existing_output_blocks.2.1 [(sampleA, FileData.pdf sampleDoc)] sampleA
      none true false false rfl,
    C5_existing_output_blocks.2.2 ⟨[sampleA], none, false, none, false⟩
      [(sampleA, FileData.pdf sampleDoc),
        (⟨"/d", "a-stripped.pdf"⟩, FileData.raw [0])]
      true sampleA ⟨"/d", "a-stripped.pdf"⟩
      rfl rfl (by decide) rfl (by decide) (by decide)⟩

/-! Claim C6. -/

theorem stripWrite_ok_err (fs : Fs) (input output : FsPath) (writer : PdfDoc) :
    (stripWrite fs input output writer true).err = none := by
  unfold stripWrite
  by_cases h : output = input <;> simp [h]

/-- C6: for every input that reports itself encrypted, strip_metadata
fails when the password is absent or empty, and fails with the decryption
error when the decryption attempt matches zero keys (wrong password); in
both failure cases the filesystem is returned unchanged, so no output file
is created or modified; with the correct password processing succeeds. -/
theorem C6_encrypted_handling (fs : Fs) (input output : FsPath) (w : Bool)
    (d : PdfDoc) (hin : fsLookup fs input = some (FileData.pdf d))
    (henc : d.encrypted = true) :
    (∀ pw, optStrTruthy pw = false →
      strip_metadata fs input output pw w
        = ⟨fs, some ("Encrypted PDF requires --password: " ++ pathStr input)⟩)
    ∧ (∀ s, s ≠ "" → s ≠ d.docPassword →
      strip_metadata fs input output (some s) w
        = ⟨fs, some ("Failed to decrypt PDF with provided password: "
            ++ pathStr input)⟩)
    ∧ (∀ s, s ≠ "" → s = d.docPassword →
      (strip_metadata fs input output (some s) true).err = none) := by
  refine ⟨?_, ?_, ?_⟩
  · intro pw hpw
    rw [strip_metadata_eq fs input output pw w d hin, henc]
    rw [if_pos rfl, if_pos hpw]
  · intro s hs hwrong
    rw [strip_metadata_eq fs input output (some s) w d hin, henc]
    rw [if_pos rfl, if_neg (by simp [optStrTruthy, hs])]
    have hdec : decryptCount d ((some s).getD "") = 0 := by
      simp [decryptCount, hwrong]
    rw [if_pos hdec]
  · intro s hs hright
    rw [strip_metadata_eq fs input output (some s) true d hin, henc]
    rw [if_pos rfl, if_neg (by simp [optStrTruthy, hs])]
    have hdec : ¬decryptCount d ((some s).getD "") = 0 := by
      simp [decryptCount, hright]
    rw [if_neg hdec]
    exact stripWrite_ok_err fs input output (stripDoc d)

/-- Witness for C6: the sample encrypted document, run with no password,
with a wrong password, and with the correct one. -/
theorem C6_witness :
    strip_metadata [(sampleA, FileData.pdf sampleEnc)] sampleA sampleB none true
      = ⟨[(sampleA, FileData.pdf sampleEnc)],
          some ("Encrypted PDF requires --password: " ++ pathStr sampleA)⟩
    ∧ strip_metadata [(sampleA, FileData.pdf sampleEnc)] sampleA sampleB
        (some "bad") true
      = ⟨[(sampleA, FileData.pdf sampleEnc)],
          some ("Failed to decrypt PDF with provided password: " ++ pathStr sampleA)⟩
    ∧ (strip_metadata [(sampleA, FileData.pdf sampleEnc)] sampleA sampleB
        (some "pw") true).err = none :=
  ⟨(C6_encrypted_handling [(sampleA, FileData.pdf sampleEnc)] sampleA sampleB
      true sampleEnc (by decide) (by decide)).1 none (by decide),
    (C6_encrypted_handling [(sampleA, FileData.pdf sampleEnc)] sampleA sampleB
      true sampleEnc (by decide) (by decide)).2.1 "bad" (by decide) (by decide),
    (C6_encrypted_handling [(sampleA, FileData.pdf sampleEnc)] sampleA sampleB
      true sampleEnc (by decide) (by decide)).2.2 "pw" (by decide) (by decide)⟩

/-! Claim C7. -/

/-- C7: for every invocation without a truthy output argument and without
the in-place flag, the computed output path for an input dir/name is the
path in the same directory whose name is the stem of the input name
suffixed with -stripped followed by the .pdf extension (and the extension
of that name is indeed .pdf, its stem the input stem plus -stripped); the
path is returned whenever it does not collide, in particular when it does
not already exist or force is set. -/
theorem C7_derived_output_name (fs : Fs) (input : FsPath) (force m : Bool)
    (h : fsExists fs (input.withName (pathStem input.name ++ "-stripped.pdf"))
        = false
      ∨ force = true) :
    resolve_output_path fs input none false force m
      = Except.ok (input.withName (pathStem input.name ++ "-stripped.pdf"))
    ∧ (input.withName (pathStem input.name ++ "-stripped.pdf")).dir = input.dir
    ∧ pathStem (pathStem input.name ++ "-stripped.pdf")
      = pathStem input.name ++ "-stripped"
    ∧ pathSuffix (pathStem input.name ++ "-stripped.pdf") = ".pdf" := by
  refine ⟨?_, rfl, pathStem_append_stripped_pdf _, pathSuffix_append_stripped_pdf _⟩
  have hbase : resolvedBase input none false m
      = Except.ok (input.withName (pathStem input.name ++ "-stripped.pdf")) := rfl
  unfold resolve_output_path
  simp only [hbase]
  rw [if_neg (by rcases h with h | h <;> simp [h])]

/-- Witness for C7: the derived path of /d/a.pdf on a filesystem where it
does not yet exist. -/
theorem C7_witness :
    resolve_output_path [(sampleA, FileData.pdf sampleDoc)] sampleA none false
        false false
      = Except.ok (sampleA.withName (pathStem sampleA.name ++ "-stripped.pdf"))
    ∧ (sampleA.withName (pathStem sampleA.name ++ "-stripped.pdf")).dir
      = sampleA.dir
    ∧ pathStem (pathStem sampleA.name ++ "-stripped.pdf")
      = pathStem sampleA.name ++ "-stripped"
    ∧ pathSuffix (pathStem sampleA.name ++ "-stripped.pdf") = ".pdf" :=
  C7_derived_output_name [(sampleA, FileData.pdf sampleDoc)] sampleA false false
    (Or.inl (by decide))

/-! Claim C9. -/

/-- C9: an output argument supplied as the empty string is falsy in the
truthiness test of resolve_output_path and is therefore treated exactly as
an absent output argument, for every input, flag combination and
filesystem; in particular, with both multiple inputs and the in-place flag
it raises neither configuration error and yields the input path itself. -/
theorem C9_empty_output_like_none :
    (∀ (fs : Fs) (input : FsPath) (ip f m : Bool),
      resolve_output_path fs input (some "") ip f m
        = resolve_output_path fs input none ip f m)
    ∧ (∀ (fs : Fs) (input : FsPath) (f : Bool),
      resolve_output_path fs input (some "") true f true = Except.ok input) := by
  constructor
  · intro fs input ip f m
    rfl
  · intro fs input f
    have hbase : resolvedBase input (some "") true true = Except.ok input := rfl
    unfold resolve_output_path
    simp only [hbase]
    rw [if_neg (by simp)]

/-! Claim C10. -/

theorem stripWrite_inplace_true (fs : Fs) (input : FsPath) (writer : PdfDoc) :
    stripWrite fs input input writer true
      = ⟨fsReplace (fsWrite fs (tmpOf input) (FileData.pdf writer)) (tmpOf input)
          input, none⟩ := by
  unfold stripWrite tmpOf
  rw [if_pos rfl]
  rfl

/-- C10: during an in-place rewrite (resolved output path equal to the
input path), strip_metadata opens the sibling stem.tmp.pdf path for
writing and overwrites whatever file pre-existed there — it never consults
the force flag, which it is not even passed; after a successful run the
temporary path no longer exists, having been renamed onto the input path,
which then holds the stripped document. -/
theorem C10_tmp_file_overwritten (fs : Fs) (input : FsPath) (pw : Option String)
    (d : PdfDoc) (d0 : FileData)
    (hin : fsLookup fs input = some (FileData.pdf d))
    (henc : d.encrypted = false)
    (_htmp : fsLookup fs (tmpOf input) = some d0) :
    (strip_metadata fs input input pw true).err = none
    ∧ fsLookup (strip_metadata fs input input pw true).fs (tmpOf input) = none
    ∧ fsLookup (strip_metadata fs input input pw true).fs input
      = some (FileData.pdf (stripDoc d)) := by
  have heq : strip_metadata fs input input pw true
      = stripWrite fs input input (stripDoc d) true := by
    rw [strip_metadata_eq fs input input pw true d hin, henc]
    rfl
  rw [heq, stripWrite_inplace_true]
  refine ⟨rfl, ?_, ?_⟩
  · unfold fsReplace
    simp only [fsLookup_fsWrite_self]
    rw [fsLookup_fsWrite_ne _ input (tmpOf input) _ (tmpPath_ne input)]
    exact fsLookup_fsErase_self _ _
  · unfold fsReplace
    simp only [fsLookup_fsWrite_self]

/-- Witness for C10: an in-place run of /d/a.pdf with a stale /d/a.tmp.pdf
already on disk. -/
theorem C10_witness :
    (strip_metadata
        [(sampleA, FileData.pdf sampleDoc), (tmpOf sampleA, FileData.raw [9])]
        sampleA sampleA none true).err = none
    ∧ fsLookup (strip_metadata
        [(sampleA, FileData.pdf sampleDoc), (tmpOf sampleA, FileData.raw [9])]
        sampleA sampleA none true).fs (tmpOf sampleA) = none
    ∧ fsLookup (strip_metadata
        [(sampleA, FileData.pdf sampleDoc), (tmpOf sampleA, FileData.raw [9])]
        sampleA sampleA none true).fs sampleA
      = some (FileData.pdf (stripDoc sampleDoc)) :=
  C10_tmp_file_overwritten
    [(sampleA, FileData.pdf sampleDoc), (tmpOf sampleA, FileData.raw [9])]
    sampleA none sampleDoc (FileData.raw [9]) (by decide) (by decide) (by decide)

/-! Claim C8. -/

theorem processLoop_prefix (oa : Option String) (ip f m : Bool)
    (pw : Option String) (w : Bool) (inputs : List FsPath) :
    ∀ fs : Fs,
      ((processLoop oa ip f m pw w fs inputs).processed.map Prod.fst
        = inputs.take (processLoop oa ip f m pw w fs inputs).processed.length)
      ∧ ((processLoop oa ip f m pw w fs inputs).err = none →
        (processLoop oa ip f m pw w fs inputs).processed.length = inputs.length)
      ∧ (∀ e, (processLoop oa ip f m pw w fs inputs).err = some e →
        (processLoop oa ip f m pw w fs inputs).processed.length < inputs.length) := by
  induction inputs with
  | nil =>
    intro fs
    refine ⟨rfl, fun _ => rfl, fun e he => ?_⟩
    exact absurd he (by simp [processLoop])
  | cons p rest ih =>
    intro fs
    unfold processLoop
    cases hres : resolve_output_path fs p oa ip f m with
    | error e =>
      refine ⟨rfl, fun hn => ?_, fun e2 he2 => ?_⟩
      · exact absurd hn (by simp)
      · simp
    | ok outp =>
      dsimp only
      cases hstrip : strip_metadata fs p outp pw w with
      | mk fs2 err =>
        cases err with
        | some e =>
          refine ⟨rfl, fun hn => ?_, fun e2 he2 => ?_⟩
          · exact absurd hn (by simp)
          · simp
        | none =>
          obtain ⟨ih1, ih2, ih3⟩ := ih fs2
          refine ⟨?_, fun hn => ?_, fun e2 he2 => ?_⟩
          · simp only [List.map_cons, List.length_cons, List.take_succ_cons]
            rw [ih1]
          · simp only [List.length_cons]
            rw [ih2 hn]
          · simp only [List.length_cons]
            have := ih3 e2 he2
            omega

/-- C8: under a validated input list the driver processes the inputs
strictly in the order given: the processed pairs of the loop form a prefix
of the input list in order, stdout carries exactly one Processed line per
completed file in that order, and the final filesystem is the state the
loop stopped in; if the loop raised no exception the exit code is 0 with
empty stderr and every input was processed, and if it raised one the exit
code is 1, stderr is the single matching ERROR line, and the remaining
inputs (a nonempty suffix) were not processed. -/
theorem C8_driver_reporting (args : Args) (fs : Fs) (w : Bool) (r : LoopResult)
    (hval : validate fs args.inputs = none)
    (hr : r = processLoop args.output args.in_place args.force
      (decide (1 < args.inputs.length)) args.password w fs args.inputs) :
    (main args fs w).stdout = r.processed.map processedLine
    ∧ r.processed.map Prod.fst = args.inputs.take r.processed.length
    ∧ (main args fs w).fs = r.fs
    ∧ (r.err = none → (main args fs w).exit = 0 ∧ (main args fs w).stderr = []
        ∧ r.processed.length = args.inputs.length)
    ∧ (∀ e, r.err = some e → (main args fs w).exit = 1
        ∧ (main args fs w).stderr = ["ERROR: " ++ e]
        ∧ r.processed.length < args.inputs.length) := by
  obtain ⟨fs2, pr, er⟩ := r
  obtain ⟨h1, h2, h3⟩ := processLoop_prefix args.output args.in_place args.force
    (decide (1 < args.inputs.length)) args.password w args.inputs fs
  rw [← hr] at h1 h2 h3
  unfold main
  rw [hval, ← hr]
  cases er with
  | none =>
    exact ⟨rfl, h1, rfl, fun _ => ⟨rfl, rfl, h2 rfl⟩,
      fun e he => absurd he (by simp)⟩
  | some e =>
    refine ⟨rfl, h1, rfl, fun hn => absurd hn (by simp),
      fun e2 he2 => ⟨rfl, ?_, h3 e2 he2⟩⟩
    cases he2
    rfl

/-- Witness for C8: a two-input run in which both files are processed
successfully. -/
theorem C8_witness :
    (main ⟨[sampleA, sampleB], none, false, none, false⟩
        [(sampleA, FileData.pdf sampleDoc), (sampleB, FileData.pdf sampleDoc)]
        true).stdout
      = (processLoop none false false
          (decide (1 < ([sampleA, sampleB] : List FsPath).length)) none true
          [(sampleA, FileData.pdf sampleDoc), (sampleB, FileData.pdf sampleDoc)]
          [sampleA, sampleB]).processed.map processedLine
    ∧ (processLoop none false false
        (decide (1 < ([sampleA, sampleB] : List FsPath).length)) none true
        [(sampleA, FileData.pdf sampleDoc), (sampleB, FileData.pdf sampleDoc)]
        [sampleA, sampleB]).processed.map Prod.fst
      = ([sampleA, sampleB] : List FsPath).take
          (processLoop none false false
            (decide (1 < ([sampleA, sampleB] : List FsPath).length)) none true
            [(sampleA, FileData.pdf sampleDoc), (sampleB, FileData.pdf sampleDoc)]
            [sampleA, sampleB]).processed.length
    ∧ (main ⟨[sampleA, sampleB], none, false, none, false⟩
        [(sampleA, FileData.pdf sampleDoc), (sampleB, FileData.pdf sampleDoc)]
        true).fs
      = (processLoop none false false
          (decide (1 < ([sampleA, sampleB] : List FsPath).length)) none true
          [(sampleA, FileData.pdf sampleDoc), (sampleB, FileData.pdf sampleDoc)]
          [sampleA, sampleB]).fs
    ∧ ((processLoop none false false
          (decide (1 < ([sampleA, sampleB] : List FsPath).length)) none true
          [(sampleA, FileData.pdf sampleDoc), (sampleB, FileData.pdf sampleDoc)]
          [sampleA, sampleB]).err = none →
        (main ⟨[sampleA, sampleB], none, false, none, false⟩
          [(sampleA, FileData.pdf sampleDoc), (sampleB, FileData.pdf sampleDoc)]
          true).exit = 0
        ∧ (main ⟨[sampleA, sampleB], none, false, none, false⟩
            [(sampleA, FileData.pdf sampleDoc), (sampleB, FileData.pdf sampleDoc)]
            true).stderr = []
        ∧ (processLoop none false false
            (decide (1 < ([sampleA, sampleB] : List FsPath).length)) none true
            [(sampleA, FileData.pdf sampleDoc), (sampleB, FileData.pdf sampleDoc)]
            [sampleA, sampleB]).processed.length
          = ([sampleA, sampleB] : List FsPath).length)
    ∧ (∀ e, (processLoop none false false
          (decide (1 < ([sampleA, sampleB] : List FsPath).length)) none true
          [(sampleA, FileData.pdf sampleDoc), (sampleB, FileData.pdf sampleDoc)]
          [sampleA, sampleB]).err = some e →
        (main ⟨[sampleA, sampleB], none, false, none, false⟩
          [(sampleA, FileData.pdf sampleDoc), (sampleB, FileData.pdf sampleDoc)]
          true).exit = 1
        ∧ (main ⟨[sampleA, sampleB], none, false, none, false⟩
            [(sampleA, FileData.pdf sampleDoc), (sampleB, FileData.pdf sampleDoc)]
            true).stderr = ["ERROR: " ++ e]
        ∧ (processLoop none false false
            (decide (1 < ([sampleA, sampleB] : List FsPath).length)) none true
            [(sampleA, FileData.pdf sampleDoc), (sampleB, FileData.pdf sampleDoc)]
            [sampleA, sampleB]).processed.length
          < ([sampleA, sampleB] : List FsPath).length) :=
  C8_driver_reporting ⟨[sampleA, sampleB], none, false, none, false⟩
    [(sampleA, FileData.pdf sampleDoc), (sampleB, FileData.pdf sampleDoc)] true
    (processLoop none false false
      (decide (1 < ([sampleA, sampleB] : List FsPath).length)) none true
      [(sampleA, FileData.pdf sampleDoc), (sampleB, FileData.pdf sampleDoc)]
      [sampleA, sampleB])
    (by decide) rfl

end StripPdf
